import Mathlib

/-!
Shallow embedding of the unitip offer-application routes
(src/app/api/v1/offers/[offer_id]/apply/route.ts), the status constants
(constants.ts) and the chat client topic derivation
(src/app/chats/[userId]/page.tsx), together with theorems about them.

Conventions of the embedding:
* the relational store is a pair of lists (offers, offer_applicants);
  a kysely select with executeTakeFirst is List.find?, a delete is
  List.filter, an update is List.map;
* SQL NOW() is an explicit integer parameter now; timestamps are Int;
* JS numbers that are only stored and copied (latitudes/longitudes) are Int;
* a handler is a function from the database and the request data to the
  produced APIResponse (Option APIResponse when the handler can fall off
  the end without returning) paired with the resulting database;
* bearer-token verification is an Option Authorization input: none embeds
  a failed verifyBearerToken;
* zod validation of the typed payload always succeeds except the
  min-length-1 check on offer_id, which is embedded explicitly.
-/

namespace Unitip

/-- ApplicantStatus enum values from constants.ts. -/
def ApplicantStatusPENDING : String := "pending"

def ApplicantStatusACCEPTED : String := "accepted"

def ApplicantStatusON_THE_WAY : String := "on_the_way"

def ApplicantStatusDONE : String := "done"

/-- OfferStatus enum values from constants.ts. -/
def OfferStatusAVAILABLE : String := "available"

def OfferStatusCLOSED : String := "closed"

/-- The complete OfferStatus vocabulary declared by the domain enum. -/
def offerStatusValues : List String := [OfferStatusAVAILABLE, OfferStatusCLOSED]

/-- A row of the offers table (the columns the apply route touches). -/
structure Offer where
  id : String
  offer_status : String
  available_until : Int
deriving DecidableEq

/-- A row of the offer_applicants table. -/
structure Applicant where
  id : String
  applicant_status : String
  note : String
  pickup_location : String
  destination_location : String
  pickup_latitude : Int
  pickup_longitude : Int
  destination_latitude : Int
  destination_longitude : Int
  customer : String
  offer : String
deriving DecidableEq

/-- The database state the apply route reads and writes. -/
structure DB where
  offers : List Offer
  offer_applicants : List Applicant
deriving DecidableEq

/-- The verified claim returned by verifyBearerToken. -/
structure Authorization where
  userId : String
  role : String
deriving DecidableEq

/-- The JSON payload of POST and PATCH after zod validation. -/
structure ApplyPayload where
  note : String
  pickup_location : String
  destination_location : String
  pickup_latitude : Int
  pickup_longitude : Int
  destination_latitude : Int
  destination_longitude : Int
deriving DecidableEq

/-- The APIResponse envelopes the route can produce. -/
inductive ApiResponse where
  | Success (id : String)
  | BadRequest
  | Unauthorized
  | Forbidden (message : String)
  | NotFound (message : String)
  | Conflict (message : String)
  | ServerError
deriving DecidableEq

/-- The select in POST, route.ts lines 86-92: first offer with the given id
whose offer_status is "available" and whose available_until is after NOW(). -/
def selectSingleOffer (db : DB) (offer_id : String) (now : Int) : Option Offer :=
  db.offers.find? fun o =>
    o.id == offer_id && o.offer_status == "available" && decide (now < o.available_until)

/-- The existing-application select shared by POST (lines 100-105) and PATCH
(lines 308-322): first applicant row with the given customer and offer. -/
def findApplication (apps : List Applicant) (userId offer_id : String) : Option Applicant :=
  apps.find? fun a => a.customer == userId && a.offer == offer_id

/-- The row inserted by POST, route.ts lines 113-128; the id is the
store-generated fresh id that the insert returns. -/
def newApplicant (freshId userId offer_id : String) (p : ApplyPayload) : Applicant :=
  { id := freshId
    applicant_status := ApplicantStatusPENDING
    note := p.note
    pickup_location := p.pickup_location
    destination_location := p.destination_location
    pickup_latitude := p.pickup_latitude
    pickup_longitude := p.pickup_longitude
    destination_latitude := p.destination_latitude
    destination_longitude := p.destination_longitude
    customer := userId
    offer := offer_id }

/-- The update in POST, route.ts lines 132-138: set offer_status to
"on_progress" on every offers row with the given id. -/
def setOnProgress (offer_id : String) (o : Offer) : Offer :=
  if o.id == offer_id then { o with offer_status := "on_progress" } else o

/-- POST /api/v1/offers/[offer_id]/apply (route.ts lines 14-148).
The insert with returning("id") always yields the inserted row, so the
unreachable (!result) ServerError guard after it is not represented. -/
def POST (db : DB) (now : Int) (auth? : Option Authorization) (offer_id : String)
    (p : ApplyPayload) (freshId : String) : ApiResponse × DB :=
  if offer_id.length < 1 then (.BadRequest, db)
  else
    match auth? with
    | none => (.Unauthorized, db)
    | some auth =>
      if auth.role != "customer" then
        (.Forbidden "Anda tidak memiliki akses untuk melakukan aksi ini!", db)
      else
        match selectSingleOffer db offer_id now with
        | none => (.Conflict "Offer tidak tersedia atau sudah berakhir!", db)
        | some _ =>
          match findApplication db.offer_applicants auth.userId offer_id with
          | some _ => (.Conflict "Anda sudah mengajukan aplikasi untuk offer ini!", db)
          | none =>
            let db1 : DB :=
              { db with offer_applicants :=
                  db.offer_applicants ++ [newApplicant freshId auth.userId offer_id p] }
            let db2 : DB := { db1 with offers := db1.offers.map (setOnProgress offer_id) }
            (.Success freshId, db2)

/-- The where-clause of the delete in DELETE, route.ts lines 189-194. -/
def deleteMatch (userId offerId : String) (a : Applicant) : Bool :=
  a.customer == userId && a.offer == offerId

/-- kysely executeTakeFirstOrThrow: the first row, or a thrown NoResultError
when the query produced no rows. -/
def executeTakeFirstOrThrow (rows : List Applicant) : Except String Applicant :=
  match rows with
  | [] => Except.error "NoResultError"
  | r :: _ => Except.ok r

/-- JS truthiness of a returned row: a row is an object, and objects are
always truthy, so (!result) on a row yielded by executeTakeFirstOrThrow
is always false. -/
def rowTruthy (_ : Applicant) : Bool := true

/-- DELETE /api/v1/offers/[offer_id]/apply (route.ts lines 155-209).
The delete removes every row matching (customer, offer); returning("id")
with executeTakeFirstOrThrow yields the first removed row or throws, and a
thrown NoResultError lands in the catch block, which logs and responds
with ServerError. -/
def DELETE (db : DB) (auth? : Option Authorization) (offerId : String) : ApiResponse × DB :=
  if offerId.length < 1 then (.BadRequest, db)
  else
    match auth? with
    | none => (.Unauthorized, db)
    | some auth =>
      if auth.role != "customer" then
        (.Forbidden "Anda tidak memiliki akses untuk melakukan aksi ini!", db)
      else
        match executeTakeFirstOrThrow (db.offer_applicants.filter (deleteMatch auth.userId offerId)) with
        | Except.error _ => (.ServerError, db)
        | Except.ok first =>
          let db' : DB :=
            { db with offer_applicants :=
                db.offer_applicants.filter fun a => !(deleteMatch auth.userId offerId a) }
          if !(rowTruthy first) then
            (.Conflict "Tidak ada data yang dihapus karena tidak ada aplikasi yang ditemukan.", db')
          else
            (.Success first.id, db')

/-- The update in PATCH, route.ts lines 328-340: overwrite exactly the seven
payload columns of a row. -/
def applyPayloadTo (p : ApplyPayload) (a : Applicant) : Applicant :=
  { a with
    note := p.note
    destination_location := p.destination_location
    pickup_location := p.pickup_location
    pickup_latitude := p.pickup_latitude
    pickup_longitude := p.pickup_longitude
    destination_latitude := p.destination_latitude
    destination_longitude := p.destination_longitude }

/-- JS truthiness of the update's execute() result: it resolves to an array
object, and arrays are truthy even when empty, so the (!result) Conflict
guard after the update can never fire. -/
def updateResultTruthy : Bool := true

/-- PATCH /api/v1/offers/[offer_id]/apply (route.ts lines 216-349).
After a successful update the handler reaches the end of the try block
without a return statement, so it produces no response: this is embedded as
the first component none. -/
def PATCH (db : DB) (auth? : Option Authorization) (offerId : String)
    (p : ApplyPayload) : Option ApiResponse × DB :=
  if offerId.length < 1 then (some .BadRequest, db)
  else
    match auth? with
    | none => (some .Unauthorized, db)
    | some auth =>
      if auth.role != "customer" then
        (some (.Forbidden "Anda tidak memiliki akses untuk melakukan aksi ini!"), db)
      else
        match findApplication db.offer_applicants auth.userId offerId with
        | none => (some (.NotFound "Aplikasi tidak ditemukan."), db)
        | some ex =>
          let db' : DB :=
            { db with offer_applicants :=
                db.offer_applicants.map fun a =>
                  if a.id == ex.id then applyPayloadTo p a else a }
          if !updateResultTruthy then (some (.Conflict "Gagal memperbarui aplikasi."), db')
          else (none, db')

/-- Number of applications of one customer on one offer currently stored. -/
def countFor (db : DB) (userId offer_id : String) : Nat :=
  (db.offer_applicants.filter fun a => a.customer == userId && a.offer == offer_id).length

/-- All applications stored against one offer. -/
def applicationsOn (db : DB) (offer_id : String) : List Applicant :=
  db.offer_applicants.filter fun a => a.offer == offer_id

/-!
Interleaving model of the database round trips of the POST handler, used to
analyse two apply calls running concurrently. Each phase performs exactly
one storage operation of the handler body: the offer-availability select,
then the existing-application select, then the insert, then the
offer_status update. Validation, token verification and the role check do
not touch the store and happen before the first phase.
-/

/-- Program counter of an in-flight POST handler, one label per pending
storage round trip. -/
inductive ApplyPhase where
  | atOfferCheck
  | atDupCheck
  | atInsert
  | atOfferUpdate
  | finished (r : ApiResponse)
deriving DecidableEq

/-- One in-flight POST apply call of an authenticated customer. -/
structure ApplyCall where
  userId : String
  offer_id : String
  payload : ApplyPayload
  freshId : String
  now : Int
  phase : ApplyPhase
deriving DecidableEq

/-- Execute the single storage operation the call is waiting on, atomically
against the shared store; each operation is the same one the POST
definition performs. -/
def stepApply (db : DB) (t : ApplyCall) : DB × ApplyCall :=
  match t.phase with
  | .atOfferCheck =>
    match selectSingleOffer db t.offer_id t.now with
    | none => (db, { t with phase := .finished (.Conflict "Offer tidak tersedia atau sudah berakhir!") })
    | some _ => (db, { t with phase := .atDupCheck })
  | .atDupCheck =>
    match findApplication db.offer_applicants t.userId t.offer_id with
    | some _ => (db, { t with phase := .finished (.Conflict "Anda sudah mengajukan aplikasi untuk offer ini!") })
    | none => (db, { t with phase := .atInsert })
  | .atInsert =>
    ({ db with offer_applicants :=
        db.offer_applicants ++ [newApplicant t.freshId t.userId t.offer_id t.payload] },
     { t with phase := .atOfferUpdate })
  | .atOfferUpdate =>
    ({ db with offers := db.offers.map (setOnProgress t.offer_id) },
     { t with phase := .finished (.Success t.freshId) })
  | .finished _ => (db, t)

/-- Interleave two apply calls: true schedules a step of the first call,
false a step of the second. -/
def runSchedule : List Bool → DB → ApplyCall → ApplyCall → DB × ApplyCall × ApplyCall
  | [], db, t1, t2 => (db, t1, t2)
  | true :: rest, db, t1, t2 =>
    let s := stepApply db t1
    runSchedule rest s.1 s.2 t2
  | false :: rest, db, t1, t2 =>
    let s := stepApply db t2
    runSchedule rest s.1 t1 s.2

/-- Run one apply call alone for a number of steps. -/
def runSteps : Nat → DB → ApplyCall → DB × ApplyCall
  | 0, db, t => (db, t)
  | n + 1, db, t =>
    let s := stepApply db t
    runSteps n s.1 s.2

/-- The response of a completed apply call, if it has completed. -/
def responseOf (t : ApplyCall) : Option ApiResponse :=
  match t.phase with
  | .finished r => some r
  | _ => none

/-- A fresh apply call about to perform its first storage operation. -/
def mkApplyCall (userId offer_id : String) (p : ApplyPayload) (freshId : String)
    (now : Int) : ApplyCall :=
  { userId := userId, offer_id := offer_id, payload := p, freshId := freshId,
    now := now, phase := .atOfferCheck }

/-!
Chat client topic derivation, src/app/chats/[userId]/page.tsx lines 52-60.
The authenticated user is the self side, the toUser is the counterpart.
-/

/-- Modelled from the spec: getPrefixedTopic is imported from lib/utils,
which is not part of the sources here. The spec fixes the topic naming
convention as exactly chat-messages/{senderId}-{recipientId} and
chat-rooms/{recipientId} and says topics are plain strings built per that
scheme, so the prefixing map is the identity on topic names. -/
def getPrefixedTopic (topic : String) : String := topic

/-- The topic the client subscribes to: messages inbound from the
counterpart (page.tsx lines 52-54). -/
def mqttChatMessagesSubTopic (authenticatedUserId toUserId : String) : String :=
  getPrefixedTopic ("chat-messages/" ++ toUserId ++ "-" ++ authenticatedUserId)

/-- The message topic the client publishes to: the counterpart's inbound
direction (page.tsx lines 55-57). -/
def mqttChatMessagesPubTopic (authenticatedUserId toUserId : String) : String :=
  getPrefixedTopic ("chat-messages/" ++ authenticatedUserId ++ "-" ++ toUserId)

/-- The room topic the client publishes to (page.tsx lines 58-60). -/
def mqttChatRoomsPubTopic (_authenticatedUserId toUserId : String) : String :=
  getPrefixedTopic ("chat-rooms/" ++ toUserId)

/-!
Concrete fixtures used by counterexamples and witnesses.
-/

/-- A payload with arbitrary concrete field values. -/
def payload0 : ApplyPayload :=
  { note := "catatan", pickup_location := "kampus", destination_location := "kos",
    pickup_latitude := 1, pickup_longitude := 2,
    destination_latitude := 3, destination_longitude := 4 }

/-- A second concrete payload, distinct from payload0. -/
def payload1 : ApplyPayload :=
  { note := "catatan baru", pickup_location := "gerbang", destination_location := "kos b",
    pickup_latitude := 5, pickup_longitude := 6,
    destination_latitude := 7, destination_longitude := 8 }

/-- An offer that is available until time 10. -/
def offerO1 : Offer := { id := "o1", offer_status := "available", available_until := 10 }

/-- A store holding only the available offer o1 and no applications. -/
def dbAvail : DB := { offers := [offerO1], offer_applicants := [] }

/-- Authenticated customer alice. -/
def authAlice : Authorization := { userId := "alice", role := "customer" }

/-- Authenticated customer bob. -/
def authBob : Authorization := { userId := "bob", role := "customer" }

/-- An application of alice on o1 that has been ACCEPTED. -/
def appAccepted : Applicant :=
  { id := "ap1", applicant_status := ApplicantStatusACCEPTED, note := "catatan",
    pickup_location := "kampus", destination_location := "kos",
    pickup_latitude := 1, pickup_longitude := 2,
    destination_latitude := 3, destination_longitude := 4,
    customer := "alice", offer := "o1" }

/-- A store where alice holds an ACCEPTED application on o1. -/
def dbAccepted : DB := { offers := [offerO1], offer_applicants := [appAccepted] }

/-- A PENDING application of alice on o1. -/
def appPending : Applicant :=
  { id := "ap1", applicant_status := ApplicantStatusPENDING, note := "catatan",
    pickup_location := "kampus", destination_location := "kos",
    pickup_latitude := 1, pickup_longitude := 2,
    destination_latitude := 3, destination_longitude := 4,
    customer := "alice", offer := "o1" }

/-- A store where alice holds a PENDING application on o1. -/
def dbPending : DB := { offers := [offerO1], offer_applicants := [appPending] }

/-- A store holding only an offer whose availability window has elapsed
relative to now = 5, with offer_status still "available". -/
def dbExpired : DB :=
  { offers := [{ id := "o1", offer_status := "available", available_until := 3 }],
    offer_applicants := [] }

/-- A store holding only an offer whose slot was taken (offer_status
"on_progress" as written by a successful apply), window still open at
now = 5. -/
def dbFilled : DB :=
  { offers := [{ id := "o1", offer_status := "on_progress", available_until := 10 }],
    offer_applicants := [] }

/-- First concurrent apply call of alice on o1. -/
def callAlice1 : ApplyCall := mkApplyCall "alice" "o1" payload0 "ap1" 5

/-- Second concurrent apply call of alice on o1. -/
def callAlice2 : ApplyCall := mkApplyCall "alice" "o1" payload0 "ap2" 5

/-- The racy interleaving: both calls pass the offer check and the
duplicate check before either one inserts. -/
def raceSchedule : List Bool := [true, false, true, false, true, true, false, false]

/-!
General lemmas about the handlers.
-/

/-- When an offer holds no applications at all, no duplicate-application row
can be found for any customer. -/
theorem findApplication_none_of_no_applications (db : DB) (u oid : String)
    (h : applicationsOn db oid = []) :
    findApplication db.offer_applicants u oid = none := by
  unfold applicationsOn at h
  unfold findApplication
  rw [List.find?_eq_none]
  intro a ha
  have h2 := List.filter_eq_nil_iff.mp h a ha
  simp only [Bool.and_eq_true, beq_iff_eq, not_and]
  intro _ hoff
  exact h2 (by simp [hoff])

/-- After the offer_status update of a successful apply, the
offer-availability select can no longer find the offer: every row with the
given id now carries offer_status "on_progress". -/
theorem selectSingleOffer_map_setOnProgress (offers : List Offer) (apps : List Applicant)
    (oid : String) (now : Int) :
    selectSingleOffer { offers := offers.map (setOnProgress oid), offer_applicants := apps }
      oid now = none := by
  unfold selectSingleOffer
  rw [List.find?_eq_none]
  intro x hx
  simp only [List.mem_map] at hx
  obtain ⟨o, _, rfl⟩ := hx
  unfold setOnProgress
  by_cases hid : o.id == oid
  · simp [hid]
  · simp [hid]

/-- The success branch of POST: with a valid offer_id, a customer role, an
available offer and no prior application, the handler inserts a PENDING row
and sets every matching offer to "on_progress". -/
theorem POST_success_eq (db : DB) (now : Int) (auth : Authorization) (oid : String)
    (p : ApplyPayload) (f : String)
    (hlen : 1 ≤ oid.length) (hrole : auth.role = "customer")
    (o : Offer) (hsel : selectSingleOffer db oid now = some o)
    (hno : findApplication db.offer_applicants auth.userId oid = none) :
    POST db now (some auth) oid p f =
      (.Success f,
       { offers := db.offers.map (setOnProgress oid),
         offer_applicants := db.offer_applicants ++ [newApplicant f auth.userId oid p] }) := by
  have h1 : ¬ (oid.length < 1) := by omega
  simp [POST, h1, hrole, hsel, hno]

/-- The unavailable-offer branch of POST: when the availability select finds
nothing, the handler responds Conflict and leaves the store unchanged. -/
theorem POST_unavailable_eq (db : DB) (now : Int) (auth : Authorization) (oid : String)
    (p : ApplyPayload) (f : String)
    (hlen : 1 ≤ oid.length) (hrole : auth.role = "customer")
    (hsel : selectSingleOffer db oid now = none) :
    POST db now (some auth) oid p f =
      (.Conflict "Offer tidak tersedia atau sudah berakhir!", db) := by
  have h1 : ¬ (oid.length < 1) := by omega
  simp [POST, h1, hrole, hsel]

/-- The duplicate-application branch of POST: when the offer is available
and the customer already holds an application on it, the handler responds
with the duplicate Conflict and leaves the store unchanged. -/
theorem POST_duplicate_eq (db : DB) (now : Int) (auth : Authorization) (oid : String)
    (p : ApplyPayload) (f : String)
    (hlen : 1 ≤ oid.length) (hrole : auth.role = "customer")
    (o : Offer) (hsel : selectSingleOffer db oid now = some o)
    (ex : Applicant) (hfind : findApplication db.offer_applicants auth.userId oid = some ex) :
    POST db now (some auth) oid p f =
      (.Conflict "Anda sudah mengajukan aplikasi untuk offer ini!", db) := by
  have h1 : ¬ (oid.length < 1) := by omega
  simp [POST, h1, hrole, hsel, hfind]

/-- When the availability select finds nothing, POST leaves the store
unchanged whatever the validation, token and role outcomes are. -/
theorem POST_db_eq_of_no_offer (db : DB) (now : Int) (auth? : Option Authorization)
    (oid : String) (p : ApplyPayload) (f : String)
    (hsel : selectSingleOffer db oid now = none) :
    (POST db now auth? oid p f).2 = db := by
  unfold POST
  split
  · rfl
  · split
    · rfl
    · split
      · rfl
      · rw [hsel]

/-- POST either leaves the store unchanged or performs exactly the
insert-then-update of the success branch. -/
theorem POST_db_structure (db : DB) (now : Int) (auth? : Option Authorization)
    (oid : String) (p : ApplyPayload) (f : String) :
    (POST db now auth? oid p f).2 = db ∨
    ∃ auth, auth? = some auth ∧
      (POST db now auth? oid p f).2 =
        { offers := db.offers.map (setOnProgress oid),
          offer_applicants := db.offer_applicants ++ [newApplicant f auth.userId oid p] } := by
  unfold POST
  split
  · left; rfl
  · split
    · left; rfl
    · split
      · left; rfl
      · split
        · left; rfl
        · split
          · left; rfl
          · right; exact ⟨_, rfl, rfl⟩

/-- The success branch adds exactly one row for the inserting customer on
the applied-to offer. -/
theorem countFor_insert_self (db : DB) (u oid : String) (p : ApplyPayload) (f : String) :
    countFor { offers := db.offers.map (setOnProgress oid),
               offer_applicants := db.offer_applicants ++ [newApplicant f u oid p] } u oid
      = countFor db u oid + 1 := by
  simp [countFor, List.filter_append, newApplicant]

/-- A single POST call adds at most one row for any (customer, offer)
pair. -/
theorem countFor_POST_le (db : DB) (now : Int) (auth? : Option Authorization)
    (oid : String) (p : ApplyPayload) (f : String) (u : String) :
    countFor (POST db now auth? oid p f).2 u oid ≤ countFor db u oid + 1 := by
  rcases POST_db_structure db now auth? oid p f with h | ⟨auth, _, h⟩
  · rw [h]; omega
  · rw [h]
    unfold countFor
    rw [List.filter_append, List.length_append]
    have h2 := List.length_filter_le
      (fun a => a.customer == u && a.offer == oid)
      [newApplicant f auth.userId oid p]
    simp only [List.length_cons, List.length_nil] at h2
    omega

/-- Running one apply call alone for its four storage steps produces the
same response and the same final store as the POST definition, for an
authenticated customer with a valid offer_id: the interleaving model embeds
the same handler body, merely cut at its storage round trips. -/
theorem runSteps_four_eq_POST (db : DB) (now : Int) (u oid : String)
    (p : ApplyPayload) (f : String) (hlen : 1 ≤ oid.length) :
    ((runSteps 4 db (mkApplyCall u oid p f now)).1,
      responseOf (runSteps 4 db (mkApplyCall u oid p f now)).2) =
    ((POST db now (some { userId := u, role := "customer" }) oid p f).2,
      some (POST db now (some { userId := u, role := "customer" }) oid p f).1) := by
  have h1 : ¬ (oid.length < 1) := by omega
  cases hsel : selectSingleOffer db oid now with
  | none =>
    simp [runSteps, stepApply, mkApplyCall, hsel, responseOf, POST, h1]
  | some o =>
    cases hfind : findApplication db.offer_applicants u oid with
    | some ex =>
      simp [runSteps, stepApply, mkApplyCall, hsel, hfind, responseOf, POST, h1]
    | none =>
      simp [runSteps, stepApply, mkApplyCall, hsel, hfind, responseOf, POST, h1]

/-- Lists separated by a character occurring in neither list: when the
shorter list comes first the two concatenations differ. -/
theorem sep_lt_ne (A B : List Char) (hb : '-' ∉ B) (hlt : A.length < B.length) :
    A ++ '-' :: B ≠ B ++ '-' :: A := by
  intro h
  have hdrop : ('-' :: B) = B.drop A.length ++ '-' :: A := by
    have h2 := congrArg (List.drop A.length) h
    rwa [List.drop_left, List.drop_append_of_le_length (le_of_lt hlt)] at h2
  cases hd : B.drop A.length with
  | nil =>
    have h3 := congrArg List.length hd
    simp only [List.length_drop, List.length_nil] at h3
    omega
  | cons c cs =>
    rw [hd] at hdrop
    injection hdrop with h4 _
    have hc : c = '-' := h4.symm
    have hcB : c ∈ B := by
      have h5 : c ∈ B.drop A.length := by rw [hd]; exact List.mem_cons_self c cs
      exact List.mem_of_mem_drop h5
    exact hb (hc ▸ hcB)

/-- Gluing two lists around a separator occurring in neither is injective
up to swapping: equal glued lists force equal components. -/
theorem sep_eq_of_append_eq (A B : List Char) (ha : '-' ∉ A) (hb : '-' ∉ B)
    (h : A ++ '-' :: B = B ++ '-' :: A) : A = B := by
  rcases Nat.lt_trichotomy A.length B.length with hlt | heq | hgt
  · exact absurd h (sep_lt_ne A B hb hlt)
  · exact (List.append_inj h heq).1
  · exact absurd h.symm (sep_lt_ne B A ha hgt)

/-!
Claim theorems.
-/

/-- C1, counterexample: on an available offer with no applications, customer
alice's apply succeeds, but customer bob's subsequent apply on the same
offer returns Conflict instead of succeeding, and only alice's single
application exists afterwards — refuting the claim that both apply calls
succeed with two PENDING applications. -/
theorem second_customer_apply_conflicts_concrete :
    (POST dbAvail 5 (some authAlice) "o1" payload0 "ap1").1 = .Success "ap1" ∧
    (POST (POST dbAvail 5 (some authAlice) "o1" payload0 "ap1").2
        5 (some authBob) "o1" payload0 "ap2").1
      = .Conflict "Offer tidak tersedia atau sudah berakhir!" ∧
    applicationsOn (POST (POST dbAvail 5 (some authAlice) "o1" payload0 "ap1").2
        5 (some authBob) "o1" payload0 "ap2").2 "o1"
      = [newApplicant "ap1" "alice" "o1" payload0] :=
  ⟨by decide, by decide, by decide⟩

/-- C1, amended: if customer A's apply on an available offer with no prior
applications succeeds, A's row is inserted PENDING, but the handler also
sets the offer's offer_status to "on_progress", so distinct customer B's
subsequent apply on the same offer fails with the offer-unavailable
Conflict and changes nothing: exactly one PENDING application remains. -/
theorem second_customer_apply_conflicts (db : DB) (now1 now2 : Int)
    (A B : Authorization) (oid : String) (p1 p2 : ApplyPayload) (f1 f2 : String)
    (o : Offer)
    (_hAB : A.userId ≠ B.userId)
    (hA : A.role = "customer") (hB : B.role = "customer") (hlen : 1 ≤ oid.length)
    (hsel : selectSingleOffer db oid now1 = some o)
    (happs : applicationsOn db oid = []) :
    (POST db now1 (some A) oid p1 f1).1 = .Success f1 ∧
    POST (POST db now1 (some A) oid p1 f1).2 now2 (some B) oid p2 f2
      = (.Conflict "Offer tidak tersedia atau sudah berakhir!",
         (POST db now1 (some A) oid p1 f1).2) ∧
    applicationsOn (POST db now1 (some A) oid p1 f1).2 oid
      = [newApplicant f1 A.userId oid p1] ∧
    (newApplicant f1 A.userId oid p1).applicant_status = ApplicantStatusPENDING := by
  have hno : findApplication db.offer_applicants A.userId oid = none :=
    findApplication_none_of_no_applications db A.userId oid happs
  have hpost := POST_success_eq db now1 A oid p1 f1 hlen hA o hsel hno
  refine ⟨by rw [hpost], ?_, ?_, rfl⟩
  · rw [hpost]
    exact POST_unavailable_eq _ now2 B oid p2 f2 hlen hB
      (selectSingleOffer_map_setOnProgress db.offers _ oid now2)
  · rw [hpost]
    unfold applicationsOn at happs ⊢
    simp [List.filter_append, happs, newApplicant]

/-- C1, witness for the amended theorem at concrete inputs. -/
theorem second_customer_apply_conflicts_witness :
    (authAlice.userId ≠ authBob.userId) ∧
    authAlice.role = "customer" ∧ authBob.role = "customer" ∧
    1 ≤ ("o1" : String).length ∧
    selectSingleOffer dbAvail "o1" 5 = some offerO1 ∧
    applicationsOn dbAvail "o1" = [] ∧
    ((POST dbAvail 5 (some authAlice) "o1" payload0 "ap1").1 = .Success "ap1" ∧
     POST (POST dbAvail 5 (some authAlice) "o1" payload0 "ap1").2
         5 (some authBob) "o1" payload1 "ap2"
       = (.Conflict "Offer tidak tersedia atau sudah berakhir!",
          (POST dbAvail 5 (some authAlice) "o1" payload0 "ap1").2) ∧
     applicationsOn (POST dbAvail 5 (some authAlice) "o1" payload0 "ap1").2 "o1"
       = [newApplicant "ap1" authAlice.userId "o1" payload0] ∧
     (newApplicant "ap1" authAlice.userId "o1" payload0).applicant_status
       = ApplicantStatusPENDING) :=
  ⟨by decide, rfl, rfl, by decide, by decide, by decide,
   second_customer_apply_conflicts dbAvail 5 5 authAlice authBob "o1" payload0 payload1
     "ap1" "ap2" offerO1 (by decide) rfl rfl (by decide) (by decide) (by decide)⟩

/-- C3, counterexample: the second sequential apply by the same customer on
the same offer does return Conflict, but with the offer-unavailable reason
rather than the duplicate-application reason the claim requires, because
the first apply already set offer_status to "on_progress". -/
theorem second_apply_wrong_reason_concrete :
    (POST (POST dbAvail 5 (some authAlice) "o1" payload0 "ap1").2
        5 (some authAlice) "o1" payload0 "ap2").1
      = .Conflict "Offer tidak tersedia atau sudah berakhir!" ∧
    (POST (POST dbAvail 5 (some authAlice) "o1" payload0 "ap1").2
        5 (some authAlice) "o1" payload0 "ap2").1
      ≠ .Conflict "Anda sudah mengajukan aplikasi untuk offer ini!" :=
  ⟨by decide, by decide⟩

/-- C3, amended: the second sequential apply by the same customer returns
Conflict and inserts nothing, but its reason is the offer-unavailable
message, not the duplicate-application one; the duplicate-application
Conflict fires exactly when the offer is still found available and the
customer already holds an application on it. -/
theorem second_apply_conflict_reason (db : DB) (now1 now2 : Int)
    (A : Authorization) (oid : String) (p1 p2 : ApplyPayload) (f1 f2 : String)
    (o : Offer)
    (hA : A.role = "customer") (hlen : 1 ≤ oid.length)
    (hsel : selectSingleOffer db oid now1 = some o)
    (hno : findApplication db.offer_applicants A.userId oid = none) :
    (POST db now1 (some A) oid p1 f1).1 = .Success f1 ∧
    POST (POST db now1 (some A) oid p1 f1).2 now2 (some A) oid p2 f2
      = (.Conflict "Offer tidak tersedia atau sudah berakhir!",
         (POST db now1 (some A) oid p1 f1).2) ∧
    (ApiResponse.Conflict "Offer tidak tersedia atau sudah berakhir!"
      ≠ ApiResponse.Conflict "Anda sudah mengajukan aplikasi untuk offer ini!") ∧
    (∀ (db2 : DB) (now3 : Int) (o2 : Offer) (ex : Applicant)
        (p3 : ApplyPayload) (f3 : String),
      selectSingleOffer db2 oid now3 = some o2 →
      findApplication db2.offer_applicants A.userId oid = some ex →
      POST db2 now3 (some A) oid p3 f3
        = (.Conflict "Anda sudah mengajukan aplikasi untuk offer ini!", db2)) := by
  have hpost := POST_success_eq db now1 A oid p1 f1 hlen hA o hsel hno
  refine ⟨by rw [hpost], ?_, by decide, ?_⟩
  · rw [hpost]
    exact POST_unavailable_eq _ now2 A oid p2 f2 hlen hA
      (selectSingleOffer_map_setOnProgress db.offers _ oid now2)
  · intro db2 now3 o2 ex p3 f3 hsel2 hfind2
    exact POST_duplicate_eq db2 now3 A oid p3 f3 hlen hA o2 hsel2 ex hfind2

/-- C3, witness for the amended theorem at concrete inputs. -/
theorem second_apply_conflict_reason_witness :
    authAlice.role = "customer" ∧ 1 ≤ ("o1" : String).length ∧
    selectSingleOffer dbAvail "o1" 5 = some offerO1 ∧
    findApplication dbAvail.offer_applicants authAlice.userId "o1" = none ∧
    ((POST dbAvail 5 (some authAlice) "o1" payload0 "ap1").1 = .Success "ap1" ∧
     POST (POST dbAvail 5 (some authAlice) "o1" payload0 "ap1").2
         5 (some authAlice) "o1" payload0 "ap2"
       = (.Conflict "Offer tidak tersedia atau sudah berakhir!",
          (POST dbAvail 5 (some authAlice) "o1" payload0 "ap1").2) ∧
     (ApiResponse.Conflict "Offer tidak tersedia atau sudah berakhir!"
       ≠ ApiResponse.Conflict "Anda sudah mengajukan aplikasi untuk offer ini!") ∧
     (∀ (db2 : DB) (now3 : Int) (o2 : Offer) (ex : Applicant)
         (p3 : ApplyPayload) (f3 : String),
       selectSingleOffer db2 "o1" now3 = some o2 →
       findApplication db2.offer_applicants authAlice.userId "o1" = some ex →
       POST db2 now3 (some authAlice) "o1" p3 f3
         = (.Conflict "Anda sudah mengajukan aplikasi untuk offer ini!", db2))) :=
  ⟨rfl, by decide, by decide, by decide,
   second_apply_conflict_reason dbAvail 5 5 authAlice "o1" payload0 payload0
     "ap1" "ap2" offerO1 rfl (by decide) (by decide) (by decide)⟩

/-- C4, counterexample: an expired offer and a slot-filled offer (status
"on_progress" as written by a successful apply) produce the identical
Conflict message, so the response reason does not distinguish offer expiry
from the slot-filled conflict. -/
theorem expired_and_filled_same_reason_concrete :
    (POST dbExpired 5 (some authAlice) "o1" payload0 "f1").1
      = .Conflict "Offer tidak tersedia atau sudah berakhir!" ∧
    (POST dbFilled 5 (some authAlice) "o1" payload0 "f1").1
      = .Conflict "Offer tidak tersedia atau sudah berakhir!" :=
  ⟨by decide, by decide⟩

/-- C4, amended: an apply on an offer whose available_until has passed
fails with Conflict regardless of the stored offer_status, with a reason
that differs from the duplicate-application reason, but is the same
message the handler uses for an unavailable (slot-filled) offer. -/
theorem expired_offer_conflict_any_status (db : DB) (now : Int)
    (auth : Authorization) (oid : String) (p : ApplyPayload) (f : String)
    (hrole : auth.role = "customer") (hlen : 1 ≤ oid.length)
    (hexp : ∀ o ∈ db.offers, o.id = oid → o.available_until ≤ now) :
    POST db now (some auth) oid p f
      = (.Conflict "Offer tidak tersedia atau sudah berakhir!", db) ∧
    (ApiResponse.Conflict "Offer tidak tersedia atau sudah berakhir!"
      ≠ ApiResponse.Conflict "Anda sudah mengajukan aplikasi untuk offer ini!") := by
  have hsel : selectSingleOffer db oid now = none := by
    unfold selectSingleOffer
    rw [List.find?_eq_none]
    intro o ho
    simp only [Bool.and_eq_true, beq_iff_eq, decide_eq_true_eq]
    rintro ⟨⟨hid, _⟩, hlt⟩
    have := hexp o ho hid
    omega
  exact ⟨POST_unavailable_eq db now auth oid p f hlen hrole hsel, by decide⟩

/-- C4, witness for the amended theorem at concrete inputs. -/
theorem expired_offer_conflict_any_status_witness :
    authAlice.role = "customer" ∧ 1 ≤ ("o1" : String).length ∧
    (∀ o ∈ dbExpired.offers, o.id = "o1" → o.available_until ≤ 5) ∧
    (POST dbExpired 5 (some authAlice) "o1" payload0 "f1"
       = (.Conflict "Offer tidak tersedia atau sudah berakhir!", dbExpired) ∧
     (ApiResponse.Conflict "Offer tidak tersedia atau sudah berakhir!"
       ≠ ApiResponse.Conflict "Anda sudah mengajukan aplikasi untuk offer ini!")) :=
  ⟨rfl, by decide, by decide,
   expired_offer_conflict_any_status dbExpired 5 authAlice "o1" payload0 "f1"
     rfl (by decide) (by decide)⟩

/-- C2, counterexample: the duplicate check and the insert are two separate
storage round trips, so the interleaving in which both of alice's apply
calls pass the offer check and the duplicate check before either inserts
leaves two stored applications for the same (applicant, subject) pair,
with both calls reporting success. -/
theorem concurrent_apply_two_rows_concrete :
    countFor (runSchedule raceSchedule dbAvail callAlice1 callAlice2).1 "alice" "o1" = 2 ∧
    responseOf (runSchedule raceSchedule dbAvail callAlice1 callAlice2).2.1
      = some (.Success "ap1") ∧
    responseOf (runSchedule raceSchedule dbAvail callAlice1 callAlice2).2.2
      = some (.Success "ap2") :=
  ⟨by decide, by decide, by decide⟩

/-- C2, amended: under sequential execution two apply calls by the same
applicant on the same offer leave at most one application for the pair,
but the duplicate check is a pre-check followed by a separate insert, not
one atomic storage operation: an interleaving of two concurrent apply
calls by the same applicant exists after which two applications for the
same (applicant, subject) pair are stored, both calls succeeding. -/
theorem apply_duplicate_check_not_atomic (db : DB) (u oid role : String)
    (now1 now2 : Int) (p1 p2 : ApplyPayload) (f1 f2 : String)
    (h0 : countFor db u oid = 0) :
    countFor (POST (POST db now1 (some { userId := u, role := role }) oid p1 f1).2
        now2 (some { userId := u, role := role }) oid p2 f2).2 u oid ≤ 1 ∧
    countFor (runSchedule raceSchedule dbAvail callAlice1 callAlice2).1 "alice" "o1" = 2 ∧
    responseOf (runSchedule raceSchedule dbAvail callAlice1 callAlice2).2.1
      = some (.Success "ap1") ∧
    responseOf (runSchedule raceSchedule dbAvail callAlice1 callAlice2).2.2
      = some (.Success "ap2") := by
  refine ⟨?_, by decide, by decide, by decide⟩
  rcases POST_db_structure db now1 (some { userId := u, role := role }) oid p1 f1 with
    h | ⟨auth, hauth, h⟩
  · rw [h]
    have h2 := countFor_POST_le db now2 (some { userId := u, role := role }) oid p2 f2 u
    omega
  · obtain rfl := Option.some.inj hauth
    rw [h]
    have hsel2 : selectSingleOffer
        { offers := db.offers.map (setOnProgress oid),
          offer_applicants :=
            db.offer_applicants
              ++ [newApplicant f1 (Authorization.mk u role).userId oid p1] }
        oid now2 = none :=
      selectSingleOffer_map_setOnProgress db.offers _ oid now2
    rw [POST_db_eq_of_no_offer _ now2 _ oid p2 f2 hsel2]
    have h3 : countFor
        { offers := db.offers.map (setOnProgress oid),
          offer_applicants :=
            db.offer_applicants
              ++ [newApplicant f1 (Authorization.mk u role).userId oid p1] }
        u oid = countFor db u oid + 1 := countFor_insert_self db u oid p1 f1
    omega

/-- C2, witness for the amended theorem at concrete inputs. -/
theorem apply_duplicate_check_not_atomic_witness :
    countFor dbAvail "alice" "o1" = 0 ∧
    (countFor (POST (POST dbAvail 5 (some { userId := "alice", role := "customer" })
          "o1" payload0 "ap1").2
        5 (some { userId := "alice", role := "customer" }) "o1" payload0 "ap2").2
        "alice" "o1" ≤ 1 ∧
     countFor (runSchedule raceSchedule dbAvail callAlice1 callAlice2).1 "alice" "o1" = 2 ∧
     responseOf (runSchedule raceSchedule dbAvail callAlice1 callAlice2).2.1
       = some (.Success "ap1") ∧
     responseOf (runSchedule raceSchedule dbAvail callAlice1 callAlice2).2.2
       = some (.Success "ap2")) :=
  ⟨by decide,
   apply_duplicate_check_not_atomic dbAvail "alice" "o1" "customer" 5 5
     payload0 payload0 "ap1" "ap2" (by decide)⟩

/-- C5, counterexample: alice's application on o1 has status ACCEPTED, yet
her withdraw call succeeds and the application row is deleted, refuting the
claim that a withdraw on a non-PENDING application does not delete it. -/
theorem withdraw_deletes_accepted_concrete :
    appAccepted.applicant_status = ApplicantStatusACCEPTED ∧
    DELETE dbAccepted (some authAlice) "o1"
      = (.Success "ap1", { offers := [offerO1], offer_applicants := [] }) :=
  ⟨by decide, by decide⟩

/-- C5, amended: the withdraw handler deletes every application row of the
calling customer on the offer and succeeds, without consulting
applicant_status: ACCEPTED, ON_THE_WAY and DONE applications are deleted
exactly like PENDING ones; rows of other customers are untouched. -/
theorem withdraw_deletes_any_status (db : DB) (auth : Authorization)
    (oid : String) (a : Applicant)
    (hrole : auth.role = "customer") (hlen : 1 ≤ oid.length)
    (hhead : (db.offer_applicants.filter (deleteMatch auth.userId oid)).head? = some a) :
    DELETE db (some auth) oid
      = (.Success a.id,
         { db with offer_applicants :=
             db.offer_applicants.filter (fun x => !(deleteMatch auth.userId oid x)) }) ∧
    (∀ x ∈ db.offer_applicants, x.customer ≠ auth.userId →
      x ∈ (DELETE db (some auth) oid).2.offer_applicants) := by
  have h1 : ¬ (oid.length < 1) := by omega
  have hex : executeTakeFirstOrThrow
      (db.offer_applicants.filter (deleteMatch auth.userId oid)) = Except.ok a := by
    cases hf : db.offer_applicants.filter (deleteMatch auth.userId oid) with
    | nil => rw [hf] at hhead; exact absurd hhead (by simp)
    | cons hd tl =>
      rw [hf] at hhead
      simp only [List.head?_cons, Option.some.injEq] at hhead
      unfold executeTakeFirstOrThrow
      rw [hhead]
  have hdel : DELETE db (some auth) oid
      = (.Success a.id,
         { db with offer_applicants :=
             db.offer_applicants.filter (fun x => !(deleteMatch auth.userId oid x)) }) := by
    simp [DELETE, h1, hrole, hex, rowTruthy]
  refine ⟨hdel, ?_⟩
  intro x hx hne
  rw [hdel]
  refine List.mem_filter.mpr ⟨hx, ?_⟩
  simp [deleteMatch, hne]

/-- C5, witness for the amended theorem at concrete inputs. -/
theorem withdraw_deletes_any_status_witness :
    authAlice.role = "customer" ∧ 1 ≤ ("o1" : String).length ∧
    (dbAccepted.offer_applicants.filter
        (deleteMatch authAlice.userId "o1")).head? = some appAccepted ∧
    (DELETE dbAccepted (some authAlice) "o1"
       = (.Success appAccepted.id,
          { dbAccepted with offer_applicants := dbAccepted.offer_applicants.filter (fun x => !(deleteMatch authAlice.userId "o1" x)) }) ∧
     (∀ x ∈ dbAccepted.offer_applicants, x.customer ≠ authAlice.userId →
       x ∈ (DELETE dbAccepted (some authAlice) "o1").2.offer_applicants)) :=
  ⟨rfl, by decide, by decide,
   withdraw_deletes_any_status dbAccepted authAlice "o1" appAccepted
     rfl (by decide) (by decide)⟩

/-- C9, confirmed: the withdraw handler's Conflict branch is unreachable on
every input, because executeTakeFirstOrThrow either yields a row (a truthy
object, so the !result guard is false) or throws, and a throw lands in the
catch block: when the caller has no application row on the offer, the
handler responds ServerError with the store unchanged. -/
theorem delete_conflict_branch_unreachable (db : DB) (auth? : Option Authorization)
    (oid : String) :
    (∀ m, (DELETE db auth? oid).1 ≠ ApiResponse.Conflict m) ∧
    (∀ auth, auth? = some auth → auth.role = "customer" → 1 ≤ oid.length →
      db.offer_applicants.filter (deleteMatch auth.userId oid) = [] →
      DELETE db auth? oid = (.ServerError, db)) := by
  constructor
  · intro m
    unfold DELETE
    split
    · simp
    · split
      · simp
      · split
        · simp
        · split
          · simp
          · simp [rowTruthy]
  · rintro auth rfl hrole hlen hfl
    have h1 : ¬ (oid.length < 1) := by omega
    simp [DELETE, h1, hrole, hfl, executeTakeFirstOrThrow]

/-- C9, witness at concrete inputs: with no applications stored, the
withdraw responds ServerError and never Conflict. -/
theorem delete_conflict_branch_unreachable_witness :
    (DELETE dbAvail (some authAlice) "o1").1
      ≠ ApiResponse.Conflict
          "Tidak ada data yang dihapus karena tidak ada aplikasi yang ditemukan." ∧
    authAlice.role = "customer" ∧ 1 ≤ ("o1" : String).length ∧
    dbAvail.offer_applicants.filter (deleteMatch authAlice.userId "o1") = [] ∧
    DELETE dbAvail (some authAlice) "o1" = (.ServerError, dbAvail) :=
  ⟨(delete_conflict_branch_unreachable dbAvail (some authAlice) "o1").1
     "Tidak ada data yang dihapus karena tidak ada aplikasi yang ditemukan.",
   rfl, by decide, by decide,
   (delete_conflict_branch_unreachable dbAvail (some authAlice) "o1").2
     authAlice rfl rfl (by decide) (by decide)⟩

/-- C6, counterexample: with the user ids "p-p" and "p", which are distinct,
the directional topic strings collapse: the side whose own id is "p-p"
publishes exactly to its own inbound subscribe topic, refuting the claim
for every pair of user identities. -/
theorem chat_topic_self_collision_concrete :
    ("p-p" : String) ≠ "p" ∧
    mqttChatMessagesPubTopic "p-p" "p" = mqttChatMessagesSubTopic "p-p" "p" :=
  ⟨by decide, by decide⟩

/-- C6, amended: the client derives exactly the topics
chat-messages/{counterpart}-{self} for subscribing and
chat-messages/{self}-{counterpart} plus chat-rooms/{counterpart} for
publishing; one side's publish message-topic is the other side's subscribe
message-topic and vice versa; and whenever the two ids are distinct and
neither contains the separator character '-', neither side publishes to
its own inbound topic. -/
theorem chat_topic_derivation (a b : String) (hab : a ≠ b)
    (ha : '-' ∉ a.data) (hb : '-' ∉ b.data) :
    mqttChatMessagesSubTopic a b = getPrefixedTopic ("chat-messages/" ++ b ++ "-" ++ a) ∧
    mqttChatMessagesPubTopic a b = getPrefixedTopic ("chat-messages/" ++ a ++ "-" ++ b) ∧
    mqttChatRoomsPubTopic a b = getPrefixedTopic ("chat-rooms/" ++ b) ∧
    mqttChatMessagesPubTopic a b = mqttChatMessagesSubTopic b a ∧
    mqttChatMessagesSubTopic a b = mqttChatMessagesPubTopic b a ∧
    mqttChatMessagesPubTopic a b ≠ mqttChatMessagesSubTopic a b := by
  refine ⟨rfl, rfl, rfl, rfl, rfl, ?_⟩
  intro h
  unfold mqttChatMessagesPubTopic mqttChatMessagesSubTopic getPrefixedTopic at h
  have hdata := congrArg String.data h
  have hsep : ("-" : String).data = ['-'] := by decide
  simp only [String.data_append, hsep, List.append_assoc, List.singleton_append] at hdata
  have h2 := List.append_cancel_left hdata
  exact hab (String.ext (sep_eq_of_append_eq a.data b.data ha hb h2))

/-- C6, witness for the amended theorem at concrete inputs. -/
theorem chat_topic_derivation_witness :
    ("alice" : String) ≠ "bob" ∧
    '-' ∉ ("alice" : String).data ∧ '-' ∉ ("bob" : String).data ∧
    (mqttChatMessagesSubTopic "alice" "bob"
       = getPrefixedTopic ("chat-messages/" ++ "bob" ++ "-" ++ "alice") ∧
     mqttChatMessagesPubTopic "alice" "bob"
       = getPrefixedTopic ("chat-messages/" ++ "alice" ++ "-" ++ "bob") ∧
     mqttChatRoomsPubTopic "alice" "bob" = getPrefixedTopic ("chat-rooms/" ++ "bob") ∧
     mqttChatMessagesPubTopic "alice" "bob" = mqttChatMessagesSubTopic "bob" "alice" ∧
     mqttChatMessagesSubTopic "alice" "bob" = mqttChatMessagesPubTopic "bob" "alice" ∧
     mqttChatMessagesPubTopic "alice" "bob" ≠ mqttChatMessagesSubTopic "alice" "bob") :=
  ⟨by decide, by decide, by decide,
   chat_topic_derivation "alice" "bob" (by decide) (by decide) (by decide)⟩

/-- C7, code bug: a successful apply writes "on_progress" into offer_status,
a value outside the OfferStatus vocabulary the domain enum declares. -/
theorem apply_sets_offer_status_outside_enum :
    (POST dbAvail 5 (some authAlice) "o1" payload0 "ap1").1 = .Success "ap1" ∧
    (∀ o ∈ (POST dbAvail 5 (some authAlice) "o1" payload0 "ap1").2.offers,
      o.offer_status = "on_progress") ∧
    ("on_progress" : String) ∉ offerStatusValues :=
  ⟨by decide, by decide, by decide⟩

/-- C8, code bug: when the PATCH handler finds the caller's application and
the update succeeds, it reaches the end of the try block without returning,
so it produces no response envelope at all, although the update itself was
applied. -/
theorem patch_update_returns_no_response :
    (PATCH dbPending (some authAlice) "o1" payload1).1 = none ∧
    (PATCH dbPending (some authAlice) "o1" payload1).2.offer_applicants
      = [applyPayloadTo payload1 appPending] :=
  ⟨by decide, by decide⟩

/-- C10, confirmed: a successful PATCH updates exactly the rows whose id is
the targeted application's id, overwriting only the seven payload fields;
id, applicant_status, customer and offer of every row are preserved, rows
with a different id are kept verbatim, and the offers table is untouched. -/
theorem patch_updates_only_payload_fields (db : DB) (auth : Authorization)
    (oid : String) (p : ApplyPayload) (ex : Applicant)
    (hrole : auth.role = "customer") (hlen : 1 ≤ oid.length)
    (hfind : findApplication db.offer_applicants auth.userId oid = some ex) :
    (PATCH db (some auth) oid p).1 = none ∧
    (PATCH db (some auth) oid p).2.offers = db.offers ∧
    (PATCH db (some auth) oid p).2.offer_applicants
      = db.offer_applicants.map (fun a => if a.id == ex.id then applyPayloadTo p a else a) ∧
    (∀ a : Applicant,
      (applyPayloadTo p a).id = a.id ∧
      (applyPayloadTo p a).applicant_status = a.applicant_status ∧
      (applyPayloadTo p a).customer = a.customer ∧
      (applyPayloadTo p a).offer = a.offer) ∧
    (∀ a ∈ db.offer_applicants, a.id ≠ ex.id →
      a ∈ (PATCH db (some auth) oid p).2.offer_applicants) := by
  have h1 : ¬ (oid.length < 1) := by omega
  have hp : PATCH db (some auth) oid p
      = (none,
         { db with offer_applicants :=
             db.offer_applicants.map (fun a => if a.id == ex.id then applyPayloadTo p a else a) }) := by
    simp [PATCH, h1, hrole, hfind, updateResultTruthy]
  refine ⟨by rw [hp], by rw [hp], by rw [hp], fun a => ⟨rfl, rfl, rfl, rfl⟩, ?_⟩
  intro a ha hne
  rw [hp]
  have heq : (fun x => if x.id == ex.id then applyPayloadTo p x else x) a = a := by
    simp [hne]
  exact heq ▸ List.mem_map_of_mem _ ha

/-- C10, witness for the theorem at concrete inputs. -/
theorem patch_updates_only_payload_fields_witness :
    authAlice.role = "customer" ∧ 1 ≤ ("o1" : String).length ∧
    findApplication dbPending.offer_applicants authAlice.userId "o1" = some appPending ∧
    ((PATCH dbPending (some authAlice) "o1" payload1).1 = none ∧
     (PATCH dbPending (some authAlice) "o1" payload1).2.offers = dbPending.offers ∧
     (PATCH dbPending (some authAlice) "o1" payload1).2.offer_applicants
       = dbPending.offer_applicants.map
           (fun a => if a.id == appPending.id then applyPayloadTo payload1 a else a) ∧
     (∀ a : Applicant,
       (applyPayloadTo payload1 a).id = a.id ∧
       (applyPayloadTo payload1 a).applicant_status = a.applicant_status ∧
       (applyPayloadTo payload1 a).customer = a.customer ∧
       (applyPayloadTo payload1 a).offer = a.offer) ∧
     (∀ a ∈ dbPending.offer_applicants, a.id ≠ appPending.id →
       a ∈ (PATCH dbPending (some authAlice) "o1" payload1).2.offer_applicants)) :=
  ⟨rfl, by decide, by decide,
   patch_updates_only_payload_fields dbPending authAlice "o1" payload1 appPending
     rfl (by decide) (by decide)⟩

end Unitip
